import Mathlib

/-!
Shallow embedding of the FrameSnap editor state engine
(`src/stores/editor.ts`): the layer model, the bounded undo/redo
history, and every public store operation.  JavaScript numbers are
modelled as `Rat`, object property bags as ordered key/value lists,
`uuidv4()` as a fresh-`Nat` counter threaded through the state, and
`Date.now()` as a logical clock that ticks on each history capture.
-/

namespace FrameSnap

/-- Property values that can occur in a layer's `props` object:
strings, numbers, booleans, and string arrays (collage image lists). -/
inductive PropVal where
  | str (s : String)
  | num (q : Rat)
  | bool (b : Bool)
  | strs (xs : List String)
  deriving DecidableEq, Repr

/-- A JavaScript object used as a property bag: an ordered list of
key/value pairs with distinct keys (first binding wins on lookup). -/
abbrev Props := List (String × PropVal)

/-- Read one field of a props object. -/
def getProp (m : Props) (k : String) : Option PropVal :=
  (m.find? (fun kv => kv.1 == k)).map (fun kv => kv.2)

/-- Write one field of a props object: overwrite the existing binding in
place if the key is present, otherwise append a new binding (JavaScript
property-write semantics). -/
def setProp (m : Props) (k : String) (v : PropVal) : Props :=
  if m.any (fun kv => kv.1 == k) then
    m.map (fun kv => if kv.1 == k then (k, v) else kv)
  else
    m ++ [(k, v)]

/-- Model of `Object.assign(base, updates)` / object-spread semantics: fold every
update field into the base object, later fields winning. -/
def objAssign (base updates : Props) : Props :=
  updates.foldl (fun acc kv => setProp acc kv.1 kv.2) base

/-- One editable layer, as in `types`: id, variant tag, auto-generated
name, visibility and lock flags, and the variant-specific props bag. -/
structure Layer where
  id : Nat
  type : String
  name : String
  visible : Bool
  lock : Bool
  props : Props
  deriving DecidableEq, Repr

/-- Width/height pair (`CanvasSize`). -/
structure CanvasSize where
  width : Rat
  height : Rat
  deriving DecidableEq, Repr

/-- One history snapshot: a deep copy of the layer list plus a
timestamp (`HistoryState` in the source). -/
structure HistoryState where
  layers : List Layer
  timestamp : Nat
  deriving DecidableEq, Repr

/-- The whole Pinia store state.  `nextId` models the uuid generator
and `now` models `Date.now()`. -/
structure EditorState where
  image : Option String
  originalImageSize : Option CanvasSize
  layers : List Layer
  activeLayerId : Option Nat
  zoom : Rat
  canvasSize : CanvasSize
  history : List HistoryState
  historyIndex : Int
  nextId : Nat
  now : Nat
  deriving DecidableEq, Repr

/-- The fixed history bound `MAX_HISTORY = 50`. -/
def MAX_HISTORY : Nat := 50

/-- The store's initial state. -/
def initialState : EditorState :=
  { image := none
    originalImageSize := none
    layers := []
    activeLayerId := none
    zoom := 1
    canvasSize := { width := 800, height := 600 }
    history := []
    historyIndex := -1
    nextId := 0
    now := 0 }

/-- Getter `canUndo`: `historyIndex > 0`. -/
def canUndo (s : EditorState) : Bool :=
  decide (0 < s.historyIndex)

/-- Getter `canRedo`: `historyIndex < history.length - 1`. -/
def canRedo (s : EditorState) : Bool :=
  decide (s.historyIndex < (s.history.length : Int) - 1)

/-- JavaScript `history[i]` indexing with an `Int` index: `undefined`
(`none`) when out of range. -/
def historyGet (h : List HistoryState) (i : Int) : Option HistoryState :=
  if 0 ≤ i then h.get? i.toNat else none

/-- The history list that `saveToHistory` builds before the size check:
truncate the redo branch when the cursor is not at the end
(`history.slice(0, historyIndex + 1)`), then push the snapshot of the
live layers. -/
def pushedHistory (s : EditorState) : List HistoryState :=
  let trimmed :=
    if s.historyIndex < (s.history.length : Int) - 1 then
      s.history.take (s.historyIndex + 1).toNat
    else
      s.history
  trimmed ++ [{ layers := s.layers, timestamp := s.now }]

/-- Model of `saveToHistory()`: push a snapshot (discarding the redo branch
first), then either evict the oldest entry (`shift`, cursor not
advanced) when the bound is exceeded, or advance the cursor. -/
def saveToHistory (s : EditorState) : EditorState :=
  if MAX_HISTORY < (pushedHistory s).length then
    { s with history := (pushedHistory s).drop 1, now := s.now + 1 }
  else
    { s with history := pushedHistory s, historyIndex := s.historyIndex + 1, now := s.now + 1 }

/-- Model of `setImage(src, width, height)`. -/
def setImage (s : EditorState) (src : String) (width height : Rat) : EditorState :=
  saveToHistory
    { s with
      image := some src
      originalImageSize := some { width := width, height := height }
      canvasSize := { width := width, height := height }
      layers := []
      activeLayerId := none
      history := []
      historyIndex := -1 }

/-- The helper `calculatePosition(position, canvasWidth, canvasHeight)`:
the nine-point anchor grid with padding 20, any other string falling
through to the `bottomRight` default branch. -/
def calculatePosition (position : String) (canvasWidth canvasHeight : Rat) : Rat × Rat :=
  let padding : Rat := 20
  if position == "topLeft" then (padding, padding)
  else if position == "topCenter" then (canvasWidth / 2, padding)
  else if position == "topRight" then (canvasWidth - padding, padding)
  else if position == "middleLeft" then (padding, canvasHeight / 2)
  else if position == "middleCenter" then (canvasWidth / 2, canvasHeight / 2)
  else if position == "middleRight" then (canvasWidth - padding, canvasHeight / 2)
  else if position == "bottomLeft" then (padding, canvasHeight - padding)
  else if position == "bottomCenter" then (canvasWidth / 2, canvasHeight - padding)
  else if position == "bottomRight" then (canvasWidth - padding, canvasHeight - padding)
  else (canvasWidth - padding, canvasHeight - padding)

/-- Count of layers of one variant, used for the auto-generated name. -/
def typeCount (ls : List Layer) (t : String) : Nat :=
  (ls.filter (fun l => l.type == t)).length

/-- Shared tail of every add-operation: append the layer, select it,
allocate the next id, capture history. -/
def pushLayer (s : EditorState) (layer : Layer) : EditorState :=
  saveToHistory
    { s with
      layers := s.layers ++ [layer]
      activeLayerId := some layer.id
      nextId := s.nextId + 1 }

/-- Model of `addImageLayer(props)`. -/
def addImageLayer (s : EditorState) (props : Props) : EditorState :=
  pushLayer s
    { id := s.nextId
      type := "image"
      name := "Image " ++ toString (typeCount s.layers "image" + 1)
      visible := true
      lock := false
      props := objAssign
        [("src", .str (s.image.getD "")), ("x", .num 0), ("y", .num 0),
         ("width", .num s.canvasSize.width), ("height", .num s.canvasSize.height),
         ("rotation", .num 0), ("opacity", .num 1)] props }

/-- Model of `addTextWatermark(text, position, options)`. -/
def addTextWatermark (s : EditorState) (text : String) (position : String)
    (options : Props) : EditorState :=
  let pos := calculatePosition position s.canvasSize.width s.canvasSize.height
  pushLayer s
    { id := s.nextId
      type := "text"
      name := "Text " ++ toString (typeCount s.layers "text" + 1)
      visible := true
      lock := false
      props := objAssign
        [("text", .str text), ("x", .num pos.1), ("y", .num pos.2),
         ("fontSize", .num 24), ("fontFamily", .str "Arial"),
         ("fontWeight", .str "normal"), ("fontStyle", .str "normal"),
         ("color", .str "#ffffff"), ("backgroundColor", .str "transparent"),
         ("opacity", .num (4 / 5)), ("rotation", .num 0)] options }

/-- Model of `addFrame(props)`. -/
def addFrame (s : EditorState) (props : Props) : EditorState :=
  pushLayer s
    { id := s.nextId
      type := "frame"
      name := "Frame " ++ toString (typeCount s.layers "frame" + 1)
      visible := true
      lock := false
      props := objAssign
        [("frameType", .str "border"), ("borderWidth", .num 10),
         ("borderColor", .str "#ffffff"), ("borderStyle", .str "solid"),
         ("blurRadius", .num 0), ("filterType", .str "grayscale"),
         ("filterIntensity", .num 0)] props }

/-- Model of `addCollage(props)`. -/
def addCollage (s : EditorState) (props : Props) : EditorState :=
  pushLayer s
    { id := s.nextId
      type := "collage"
      name := "Collage " ++ toString (typeCount s.layers "collage" + 1)
      visible := true
      lock := false
      props := objAssign
        [("layout", .str "grid"), ("columns", .num 2), ("rows", .num 2),
         ("gap", .num 10), ("images", .strs [])] props }

/-- Apply `f` to the first list element satisfying `p`, as mutating the
object returned by `Array.prototype.find`. -/
def updateFirst (p : Layer → Bool) (f : Layer → Layer) : List Layer → List Layer
  | [] => []
  | l :: ls => if p l then f l :: ls else l :: updateFirst p f ls

/-- Model of `Array.prototype.findIndex`, with `none` for `-1`. -/
def findIndex (p : Layer → Bool) : List Layer → Option Nat
  | [] => none
  | l :: ls => if p l then some 0 else (findIndex p ls).map (· + 1)

/-- Model of `array.splice(i, 1)`: drop the element at index `i`. -/
def removeAt : List Layer → Nat → List Layer
  | [], _ => []
  | _ :: ls, 0 => ls
  | l :: ls, n + 1 => l :: removeAt ls n

/-- Exchange the elements at indices `i` and `j`
(`layers[i] = target; layers[j] = temp`). -/
def swapAt (l : List Layer) (i j : Nat) : List Layer :=
  match l.get? i, l.get? j with
  | some a, some b => (l.set i b).set j a
  | _, _ => l

/-- Model of `updateLayer(layerId, updates)`: shallow-merge `updates` into the
found layer's props (`Object.assign`); silent no-op when not found;
captures no history. -/
def updateLayer (s : EditorState) (layerId : Nat) (updates : Props) : EditorState :=
  match s.layers.find? (fun l => l.id == layerId) with
  | some _ =>
      { s with
        layers := updateFirst (fun l => l.id == layerId)
          (fun l => { l with props := objAssign l.props updates }) s.layers }
  | none => s

/-- Model of `deleteLayer(layerId)`: splice the layer out, repoint the active
layer at the new first layer (or none) when it was the one deleted,
capture history; silent no-op when not found. -/
def deleteLayer (s : EditorState) (layerId : Nat) : EditorState :=
  match findIndex (fun l => l.id == layerId) s.layers with
  | none => s
  | some index =>
      let ls := removeAt s.layers index
      let active :=
        if s.activeLayerId = some layerId then ls.head?.map (fun l => l.id)
        else s.activeLayerId
      saveToHistory { s with layers := ls, activeLayerId := active }

/-- Model of `setActiveLayer(layerId | null)`: pure selection change. -/
def setActiveLayer (s : EditorState) (layerId : Option Nat) : EditorState :=
  { s with activeLayerId := layerId }

/-- Model of `toggleLayerVisibility(layerId)`: flip `visible` on the found layer
and capture history; silent no-op when not found. -/
def toggleLayerVisibility (s : EditorState) (layerId : Nat) : EditorState :=
  match s.layers.find? (fun l => l.id == layerId) with
  | some _ =>
      saveToHistory
        { s with
          layers := updateFirst (fun l => l.id == layerId)
            (fun l => { l with visible := !l.visible }) s.layers }
  | none => s

/-- The neighbour index `direction === 'up' ? index + 1 : index - 1`
(an `Int`, since JavaScript happily computes `-1` here). -/
def moveTarget (direction : String) (index : Nat) : Int :=
  if direction == "up" then (index : Int) + 1 else (index : Int) - 1

/-- Model of `moveLayer(layerId, direction)`: swap with the neighbour toward the
front (`up`) or back (`down`); no-op when the id is missing or the move
leaves the bounds; captures history on a successful swap. -/
def moveLayer (s : EditorState) (layerId : Nat) (direction : String) : EditorState :=
  match findIndex (fun l => l.id == layerId) s.layers with
  | none => s
  | some index =>
      if moveTarget direction index < 0 ∨
          (s.layers.length : Int) ≤ moveTarget direction index then s
      else
        saveToHistory
          { s with layers := swapAt s.layers index (moveTarget direction index).toNat }

/-- Model of `setZoom(value)`: clamp to `[0.1, 5]`. -/
def setZoom (s : EditorState) (value : Rat) : EditorState :=
  { s with zoom := max (1 / 10) (min 5 value) }

/-- Model of `undo()`: no-op unless `canUndo`; move the cursor back, restore a
deep copy of the snapshot now at the cursor, clear the selection. -/
def undo (s : EditorState) : EditorState :=
  if canUndo s then
    let i := s.historyIndex - 1
    let restored :=
      match historyGet s.history i with
      | some st => st.layers
      | none => s.layers
    { s with historyIndex := i, layers := restored, activeLayerId := none }
  else s

/-- Model of `redo()`: no-op unless `canRedo`; move the cursor forward, restore
a deep copy of the snapshot now at the cursor, clear the selection. -/
def redo (s : EditorState) : EditorState :=
  if canRedo s then
    let i := s.historyIndex + 1
    let restored :=
      match historyGet s.history i with
      | some st => st.layers
      | none => s.layers
    { s with historyIndex := i, layers := restored, activeLayerId := none }
  else s

/-- Model of `clear()`: back to the no-image state (zoom untouched). -/
def clear (s : EditorState) : EditorState :=
  { s with
    image := none
    originalImageSize := none
    layers := []
    activeLayerId := none
    history := []
    historyIndex := -1
    canvasSize := { width := 800, height := 600 } }

/-- Model of `loadFromTemplate(layersData)`: replace the layer set wholesale,
select the first layer (or none), capture history once. -/
def loadFromTemplate (s : EditorState) (layersData : List Layer) : EditorState :=
  saveToHistory
    { s with
      layers := layersData
      activeLayerId := layersData.head?.map (fun l => l.id) }

/-- One public store operation, for quantifying over call sequences. -/
inductive Op where
  | setImage (src : String) (width height : Rat)
  | addImageLayer (props : Props)
  | addTextWatermark (text : String) (position : String) (options : Props)
  | addFrame (props : Props)
  | addCollage (props : Props)
  | updateLayer (layerId : Nat) (updates : Props)
  | deleteLayer (layerId : Nat)
  | setActiveLayer (layerId : Option Nat)
  | toggleLayerVisibility (layerId : Nat)
  | moveLayer (layerId : Nat) (direction : String)
  | setZoom (value : Rat)
  | undo
  | redo
  | clear
  | loadFromTemplate (layersData : List Layer)
  deriving DecidableEq, Repr

/-- Interpret one operation. -/
def applyOp (s : EditorState) : Op → EditorState
  | .setImage src w h => setImage s src w h
  | .addImageLayer props => addImageLayer s props
  | .addTextWatermark text position options => addTextWatermark s text position options
  | .addFrame props => addFrame s props
  | .addCollage props => addCollage s props
  | .updateLayer layerId updates => updateLayer s layerId updates
  | .deleteLayer layerId => deleteLayer s layerId
  | .setActiveLayer layerId => setActiveLayer s layerId
  | .toggleLayerVisibility layerId => toggleLayerVisibility s layerId
  | .moveLayer layerId direction => moveLayer s layerId direction
  | .setZoom value => setZoom s value
  | .undo => undo s
  | .redo => redo s
  | .clear => clear s
  | .loadFromTemplate layersData => loadFromTemplate s layersData

/-- Run a call sequence from a starting state. -/
def run (s : EditorState) (ops : List Op) : EditorState :=
  ops.foldl applyOp s

/-- A state the store can actually be in. -/
def Reachable (s : EditorState) : Prop :=
  ∃ ops : List Op, run initialState ops = s

/-! ### Frame facts about `saveToHistory` and `pushLayer` -/

theorem saveToHistory_layers (s : EditorState) : (saveToHistory s).layers = s.layers := by
  unfold saveToHistory
  split <;> rfl

theorem saveToHistory_activeLayerId (s : EditorState) :
    (saveToHistory s).activeLayerId = s.activeLayerId := by
  unfold saveToHistory
  split <;> rfl

theorem saveToHistory_image (s : EditorState) : (saveToHistory s).image = s.image := by
  unfold saveToHistory
  split <;> rfl

theorem saveToHistory_canvasSize (s : EditorState) :
    (saveToHistory s).canvasSize = s.canvasSize := by
  unfold saveToHistory
  split <;> rfl

theorem pushLayer_layers (s : EditorState) (l : Layer) :
    (pushLayer s l).layers = s.layers ++ [l] := by
  unfold pushLayer
  rw [saveToHistory_layers]

theorem pushLayer_activeLayerId (s : EditorState) (l : Layer) :
    (pushLayer s l).activeLayerId = some l.id := by
  unfold pushLayer
  rw [saveToHistory_activeLayerId]

/-- The requested prop of the most recently appended layer, for reading
back what an add-operation just constructed. -/
def lastLayerProp (s : EditorState) (k : String) : Option (Option PropVal) :=
  s.layers.getLast?.map (fun l => getProp l.props k)

/-! ### C10: undo/redo only touch layers, selection and the cursor -/

/-- C10: `undo()` and `redo()` modify only `layers`, `activeLayerId`
and `historyIndex`: the base image, original image size, canvas size,
zoom, and the whole stored history list (hence every snapshot's
contents) are unchanged by either call, for every state. -/
theorem undo_redo_touch_only_layers_and_cursor (s : EditorState) :
    (undo s).image = s.image ∧ (undo s).originalImageSize = s.originalImageSize ∧
    (undo s).canvasSize = s.canvasSize ∧ (undo s).zoom = s.zoom ∧
    (undo s).history = s.history ∧
    (redo s).image = s.image ∧ (redo s).originalImageSize = s.originalImageSize ∧
    (redo s).canvasSize = s.canvasSize ∧ (redo s).zoom = s.zoom ∧
    (redo s).history = s.history := by
  unfold undo redo
  refine ⟨?_, ?_, ?_, ?_, ?_, ?_, ?_, ?_, ?_, ?_⟩ <;> (split <;> rfl)

/-! ### C5: defaults of `addTextWatermark` -/

/-- C5 counterexample: the default text colour produced by
`addTextWatermark` is `#ffffff` (white), not black (`#000000`), already
on the very first layer ever added. -/
theorem addTextWatermark_default_color_not_black :
    lastLayerProp (addTextWatermark initialState "w" "bottomRight" []) "color"
      = some (some (.str "#ffffff")) ∧
    some (some (PropVal.str "#ffffff")) ≠ some (some (PropVal.str "#000000")) := by
  decide

/-- C5 (amended): a text layer created by `addTextWatermark` with no
caller-supplied option overrides has fontSize 24, white (`#ffffff`)
text colour on a transparent background, and opacity 0.8. -/
theorem addTextWatermark_default_props (s : EditorState) (text position : String) :
    lastLayerProp (addTextWatermark s text position []) "fontSize" = some (some (.num 24)) ∧
    lastLayerProp (addTextWatermark s text position []) "color" = some (some (.str "#ffffff")) ∧
    lastLayerProp (addTextWatermark s text position []) "backgroundColor"
      = some (some (.str "transparent")) ∧
    lastLayerProp (addTextWatermark s text position []) "opacity" = some (some (.num (4 / 5))) := by
  refine ⟨?_, ?_, ?_, ?_⟩ <;>
  · simp only [lastLayerProp, addTextWatermark, pushLayer_layers, List.getLast?_concat,
      Option.map_some']
    rfl

/-! ### C9: the nine-point anchor grid -/

theorem lastLayerProp_addTextWatermark_x (s : EditorState) (text position : String) :
    lastLayerProp (addTextWatermark s text position []) "x"
      = some (some (.num (calculatePosition position s.canvasSize.width s.canvasSize.height).1)) := by
  simp only [lastLayerProp, addTextWatermark, pushLayer_layers, List.getLast?_concat,
    Option.map_some']
  rfl

theorem lastLayerProp_addTextWatermark_y (s : EditorState) (text position : String) :
    lastLayerProp (addTextWatermark s text position []) "y"
      = some (some (.num (calculatePosition position s.canvasSize.width s.canvasSize.height).2)) := by
  simp only [lastLayerProp, addTextWatermark, pushLayer_layers, List.getLast?_concat,
    Option.map_some']
  rfl

/-- C9: `calculatePosition` resolves anchors on an 800×600 canvas to
`topLeft ↦ (20, 20)`, `bottomRight ↦ (780, 580)`,
`middleCenter ↦ (400, 300)`; any string that is none of the nine known
anchors falls back to the `bottomRight` coordinates; and
`addTextWatermark` stores exactly these coordinates in the new layer's
`x`/`y` props. -/
theorem calculatePosition_grid (p : String)
    (hp : p ∉ (["topLeft", "topCenter", "topRight", "middleLeft", "middleCenter",
      "middleRight", "bottomLeft", "bottomCenter", "bottomRight"] : List String)) :
    calculatePosition "topLeft" 800 600 = (20, 20) ∧
    calculatePosition "bottomRight" 800 600 = (780, 580) ∧
    calculatePosition "middleCenter" 800 600 = (400, 300) ∧
    calculatePosition p 800 600 = (780, 580) ∧
    lastLayerProp (addTextWatermark (setImage initialState "img" 800 600) "x" "topLeft" []) "x"
      = some (some (.num 20)) ∧
    lastLayerProp (addTextWatermark (setImage initialState "img" 800 600) "x" "topLeft" []) "y"
      = some (some (.num 20)) ∧
    lastLayerProp (addTextWatermark (setImage initialState "img" 800 600) "x" "bottomRight" []) "x"
      = some (some (.num 780)) ∧
    lastLayerProp (addTextWatermark (setImage initialState "img" 800 600) "x" "bottomRight" []) "y"
      = some (some (.num 580)) ∧
    lastLayerProp (addTextWatermark (setImage initialState "img" 800 600) "x" "middleCenter" []) "x"
      = some (some (.num 400)) ∧
    lastLayerProp (addTextWatermark (setImage initialState "img" 800 600) "x" "middleCenter" []) "y"
      = some (some (.num 300)) := by
  simp only [List.mem_cons, List.not_mem_nil, or_false, not_or] at hp
  obtain ⟨h1, h2, h3, h4, h5, h6, h7, h8, h9⟩ := hp
  have hcv : (setImage initialState "img" 800 600).canvasSize = { width := 800, height := 600 } := by
    simp [setImage, saveToHistory_canvasSize]
  refine ⟨by simp [calculatePosition] <;> norm_num, by simp [calculatePosition] <;> norm_num,
    by simp [calculatePosition] <;> norm_num, ?_, ?_, ?_, ?_, ?_, ?_, ?_⟩
  · simp [calculatePosition, h1, h2, h3, h4, h5, h6, h7, h8, h9] <;> norm_num
  · rw [lastLayerProp_addTextWatermark_x, hcv]
    simp [calculatePosition] <;> norm_num
  · rw [lastLayerProp_addTextWatermark_y, hcv]
    simp [calculatePosition] <;> norm_num
  · rw [lastLayerProp_addTextWatermark_x, hcv]
    simp [calculatePosition] <;> norm_num
  · rw [lastLayerProp_addTextWatermark_y, hcv]
    simp [calculatePosition] <;> norm_num
  · rw [lastLayerProp_addTextWatermark_x, hcv]
    simp [calculatePosition] <;> norm_num
  · rw [lastLayerProp_addTextWatermark_y, hcv]
    simp [calculatePosition] <;> norm_num

/-- C9 witness: the tenth `WatermarkPosition` value, `"custom"`, has no
case in the switch and lands in the default branch. -/
theorem calculatePosition_grid_witness :
    ("custom" : String) ∉ (["topLeft", "topCenter", "topRight", "middleLeft", "middleCenter",
      "middleRight", "bottomLeft", "bottomCenter", "bottomRight"] : List String) ∧
    calculatePosition "custom" 800 600 = (780, 580) :=
  ⟨by decide, (calculatePosition_grid "custom" (by decide)).2.2.2.1⟩

/-! ### C7: `setImage` and the three-snapshot scenario -/

/-- C7: `setImage(src, w, h)` stores the image, sets both
`originalImageSize` and `canvasSize` to (w, h), clears layers,
selection and history, and then performs exactly one initial capture;
and the scenario `setImage(img, 800, 600)`, `addFrame(borderWidth 20)`,
`deleteLayer(thatId)` ends with no layers, exactly three history
snapshots, `canUndo` true and `canRedo` false. -/
theorem setImage_spec (s : EditorState) (src : String) (w h : Rat) :
    setImage s src w h =
      { image := some src
        originalImageSize := some { width := w, height := h }
        layers := []
        activeLayerId := none
        zoom := s.zoom
        canvasSize := { width := w, height := h }
        history := [{ layers := [], timestamp := s.now }]
        historyIndex := 0
        nextId := s.nextId
        now := s.now + 1 } ∧
    (deleteLayer (addFrame (setImage initialState "img" 800 600)
      [("borderWidth", .num 20)]) 0).layers = [] ∧
    (deleteLayer (addFrame (setImage initialState "img" 800 600)
      [("borderWidth", .num 20)]) 0).history.length = 3 ∧
    canUndo (deleteLayer (addFrame (setImage initialState "img" 800 600)
      [("borderWidth", .num 20)]) 0) = true ∧
    canRedo (deleteLayer (addFrame (setImage initialState "img" 800 600)
      [("borderWidth", .num 20)]) 0) = false := by
  exact ⟨rfl, by decide, by decide, by decide, by decide⟩

/-! ### C6: not-found ids are silent no-ops -/

theorem findIndex_eq_none_of (p : Layer → Bool) (ls : List Layer)
    (h : ∀ l ∈ ls, p l = false) : findIndex p ls = none := by
  induction ls with
  | nil => rfl
  | cons x xs ih =>
      unfold findIndex
      rw [h x (List.mem_cons_self x xs)]
      simp [ih (fun l hl => h l (List.mem_cons_of_mem x hl))]

/-- C6: calling `updateLayer`, `deleteLayer`, `toggleLayerVisibility`
or `moveLayer` with an id that no current layer carries leaves the
entire state unchanged — in particular no history snapshot is taken. -/
theorem missing_id_ops_are_noops (s : EditorState) (i : Nat) (u : Props) (d : String)
    (hmiss : ∀ l ∈ s.layers, l.id ≠ i) :
    updateLayer s i u = s ∧ deleteLayer s i = s ∧
    toggleLayerVisibility s i = s ∧ moveLayer s i d = s := by
  have hfind : s.layers.find? (fun l => l.id == i) = none := by
    rw [List.find?_eq_none]
    intro x hx
    simp [hmiss x hx]
  have hidx : findIndex (fun l => l.id == i) s.layers = none :=
    findIndex_eq_none_of _ _ (fun l hl => by simp [hmiss l hl])
  refine ⟨?_, ?_, ?_, ?_⟩
  · unfold updateLayer
    rw [hfind]
  · unfold deleteLayer
    rw [hidx]
  · unfold toggleLayerVisibility
    rw [hfind]
  · unfold moveLayer
    rw [hidx]

/-! ### C1: capturing after undo discards the redo branch -/

/-- Image load, then three frame layers captured (history A, B, C, D),
then two undos: the cursor sits on snapshot B. -/
def divergeScenario : EditorState :=
  run initialState
    [.setImage "i" 800 600, .addFrame [], .addFrame [], .addFrame [], .undo, .undo]

/-- C1: capturing history while `historyIndex` is not at the end first
discards every snapshot after `historyIndex`, then appends the new
snapshot, and `canRedo` is false afterwards. -/
theorem saveToHistory_diverge (s : EditorState)
    (h0 : 0 ≤ s.historyIndex)
    (h1 : s.historyIndex < (s.history.length : Int) - 1)
    (h2 : s.history.length ≤ MAX_HISTORY) :
    (saveToHistory s).history =
      s.history.take (s.historyIndex + 1).toNat ++
        [{ layers := s.layers, timestamp := s.now }] ∧
    canRedo (saveToHistory s) = false := by
  have hp : pushedHistory s =
      s.history.take (s.historyIndex + 1).toNat ++
        [{ layers := s.layers, timestamp := s.now }] := by
    unfold pushedHistory
    rw [if_pos h1]
  have hlen : (pushedHistory s).length = (s.historyIndex + 1).toNat + 1 := by
    rw [hp]
    simp only [List.length_append, List.length_take, List.length_cons, List.length_nil]
    omega
  have hno : ¬ MAX_HISTORY < (pushedHistory s).length := by
    have h50 : s.history.length ≤ 50 := h2
    rw [hlen]
    unfold MAX_HISTORY
    omega
  constructor
  · unfold saveToHistory
    rw [if_neg hno]
    exact hp
  · unfold saveToHistory
    rw [if_neg hno]
    show decide (s.historyIndex + 1 < ((pushedHistory s).length : Int) - 1) = false
    rw [hlen, decide_eq_false_iff_not]
    omega

/-- C1 witness: after capturing four states A, B, C, D and undoing
twice, a fifth capture E leaves the history at exactly (A, B, E) —
layer-id lists ([], [0], [0, 3]) — with redo unavailable. -/
theorem saveToHistory_diverge_witness :
    (0 ≤ divergeScenario.historyIndex ∧
      divergeScenario.historyIndex < (divergeScenario.history.length : Int) - 1 ∧
      divergeScenario.history.length ≤ MAX_HISTORY) ∧
    ((saveToHistory divergeScenario).history =
        divergeScenario.history.take (divergeScenario.historyIndex + 1).toNat ++
          [{ layers := divergeScenario.layers, timestamp := divergeScenario.now }] ∧
      canRedo (saveToHistory divergeScenario) = false) ∧
    (run divergeScenario [.addFrame []]).history.map (fun st => st.layers.map (fun l => l.id))
      = [[], [0], [0, 3]] ∧
    canRedo (run divergeScenario [.addFrame []]) = false :=
  ⟨⟨by decide, by decide, by decide⟩,
    saveToHistory_diverge divergeScenario (by decide) (by decide) (by decide),
    by decide, by decide⟩

/-! ### C2: undo immediately followed by redo -/

/-- The live layer list agrees with the snapshot under the history
cursor.  This holds after every capture, undo and redo, and is exactly
what an uncaptured `updateLayer` mutation breaks. -/
def inSync (s : EditorState) : Prop :=
  (historyGet s.history s.historyIndex).map (fun st => st.layers) = some s.layers

instance (s : EditorState) : Decidable (inSync s) := by
  unfold inSync
  infer_instance

/-- C2 counterexample: in a reachable state with `canUndo` true (image
loaded, one frame layer captured, then an uncaptured
`updateLayer` changing `borderWidth`), `undo()` followed by `redo()`
yields a layer list different from the live one before the undo. -/
theorem undo_redo_not_roundtrip :
    canUndo (run initialState [.setImage "i" 800 600, .addFrame [],
      .updateLayer 0 [("borderWidth", .num 30)]]) = true ∧
    (redo (undo (run initialState [.setImage "i" 800 600, .addFrame [],
        .updateLayer 0 [("borderWidth", .num 30)]]))).layers ≠
      (run initialState [.setImage "i" 800 600, .addFrame [],
        .updateLayer 0 [("borderWidth", .num 30)]]).layers := by
  decide

/-- C2 (amended): for every reachable state in which `canUndo` holds
and the live layers agree with the snapshot at `historyIndex` (true
whenever no uncaptured `updateLayer` mutation happened since the last
capture/undo/redo), `undo()` then `redo()` restores the layer list that
was live before the undo. -/
theorem undo_redo_roundtrip (s : EditorState) (hr : Reachable s)
    (hu : canUndo s = true) (hs : inSync s) :
    (redo (undo s)).layers = s.layers := by
  have hidx : 0 < s.historyIndex := by
    have := of_decide_eq_true hu
    exact this
  obtain ⟨st, hget, hlay⟩ : ∃ st, historyGet s.history s.historyIndex = some st ∧
      st.layers = s.layers := by
    unfold inSync at hs
    obtain ⟨st, h1, h2⟩ := Option.map_eq_some'.mp hs
    exact ⟨st, h1, h2⟩
  have hlt : s.historyIndex.toNat < s.history.length := by
    unfold historyGet at hget
    rw [if_pos (le_of_lt hidx)] at hget
    obtain ⟨h, -⟩ := List.get?_eq_some.mp hget
    exact h
  have hlt' : (s.historyIndex - 1).toNat < s.history.length := by omega
  obtain ⟨st', hst'⟩ : ∃ st', s.history.get? (s.historyIndex - 1).toNat = some st' :=
    ⟨_, List.get?_eq_get hlt'⟩
  have hundo : undo s =
      { s with
        historyIndex := s.historyIndex - 1
        layers := st'.layers
        activeLayerId := none } := by
    unfold undo
    rw [if_pos hu]
    have hg : historyGet s.history (s.historyIndex - 1) = some st' := by
      unfold historyGet
      rw [if_pos (by omega : (0 : Int) ≤ s.historyIndex - 1)]
      exact hst'
    simp only [hg]
  rw [hundo]
  unfold redo
  have hredo : canRedo
      ({ s with
        historyIndex := s.historyIndex - 1
        layers := st'.layers
        activeLayerId := none } : EditorState) = true := by
    show decide (s.historyIndex - 1 < (s.history.length : Int) - 1) = true
    rw [decide_eq_true_iff]
    omega
  rw [if_pos hredo]
  show (match historyGet s.history (s.historyIndex - 1 + 1) with
    | some t => t.layers
    | none => st'.layers) = s.layers
  have hback : s.historyIndex - 1 + 1 = s.historyIndex := by omega
  rw [hback, hget]
  exact hlay

/-- C2 witness: a reachable, in-sync state (image plus one captured
frame layer) where undo then redo restores the live layers. -/
theorem undo_redo_roundtrip_witness :
    Reachable (run initialState [.setImage "i" 800 600, .addFrame []]) ∧
    canUndo (run initialState [.setImage "i" 800 600, .addFrame []]) = true ∧
    inSync (run initialState [.setImage "i" 800 600, .addFrame []]) ∧
    (redo (undo (run initialState [.setImage "i" 800 600, .addFrame []]))).layers
      = (run initialState [.setImage "i" 800 600, .addFrame []]).layers :=
  ⟨⟨[.setImage "i" 800 600, .addFrame []], rfl⟩, by decide, by decide,
    undo_redo_roundtrip _ ⟨[.setImage "i" 800 600, .addFrame []], rfl⟩ (by decide) (by decide)⟩

/-- C6 witness: id 77 is absent from a state holding one frame layer,
and all four operations leave that state untouched. -/
theorem missing_id_ops_are_noops_witness :
    (∀ l ∈ (run initialState [.setImage "i" 800 600, .addFrame []]).layers, l.id ≠ 77) ∧
    (updateLayer (run initialState [.setImage "i" 800 600, .addFrame []]) 77 []
        = run initialState [.setImage "i" 800 600, .addFrame []] ∧
      deleteLayer (run initialState [.setImage "i" 800 600, .addFrame []]) 77
        = run initialState [.setImage "i" 800 600, .addFrame []] ∧
      toggleLayerVisibility (run initialState [.setImage "i" 800 600, .addFrame []]) 77
        = run initialState [.setImage "i" 800 600, .addFrame []] ∧
      moveLayer (run initialState [.setImage "i" 800 600, .addFrame []]) 77 "up"
        = run initialState [.setImage "i" 800 600, .addFrame []]) :=
  ⟨by decide, missing_id_ops_are_noops _ 77 [] "up" (by decide)⟩

/-! ### C3: the history bound and the eviction rule -/

/-- Well-formedness of the history/cursor pair: at most `MAX_HISTORY`
snapshots, cursor between `-1` and the last index. -/
def histWF (s : EditorState) : Prop :=
  s.history.length ≤ MAX_HISTORY ∧ -1 ≤ s.historyIndex ∧
    s.historyIndex ≤ (s.history.length : Int) - 1

theorem histWF_initial : histWF initialState := by
  refine ⟨?_, ?_, ?_⟩ <;> decide

theorem pushedHistory_length (s : EditorState) (hn : -1 ≤ s.historyIndex)
    (hi : s.historyIndex ≤ (s.history.length : Int) - 1) :
    (pushedHistory s).length = (s.historyIndex + 1).toNat + 1 := by
  unfold pushedHistory
  by_cases hc : s.historyIndex < (s.history.length : Int) - 1
  · rw [if_pos hc]
    simp only [List.length_append, List.length_take, List.length_cons, List.length_nil]
    omega
  · rw [if_neg hc]
    simp only [List.length_append, List.length_cons, List.length_nil]
    omega

theorem saveToHistory_histWF (s : EditorState) (h : histWF s) :
    histWF (saveToHistory s) ∧
    (saveToHistory s).historyIndex = ((saveToHistory s).history.length : Int) - 1 := by
  obtain ⟨hb, hn, hi⟩ := h
  have h50 : s.history.length ≤ 50 := hb
  have hm : MAX_HISTORY = 50 := rfl
  have hpl := pushedHistory_length s hn hi
  unfold saveToHistory
  by_cases hev : MAX_HISTORY < (pushedHistory s).length
  · rw [if_pos hev]
    have hev50 : 50 < (s.historyIndex + 1).toNat + 1 := hm ▸ hpl ▸ hev
    have hld : ((pushedHistory s).drop 1).length = (s.historyIndex + 1).toNat := by
      simp only [List.length_drop, hpl]
      omega
    refine ⟨⟨?_, ?_, ?_⟩, ?_⟩
    · show ((pushedHistory s).drop 1).length ≤ MAX_HISTORY
      rw [hld, hm]
      omega
    · show -1 ≤ s.historyIndex
      exact hn
    · show s.historyIndex ≤ (((pushedHistory s).drop 1).length : Int) - 1
      rw [hld]
      omega
    · show s.historyIndex = (((pushedHistory s).drop 1).length : Int) - 1
      rw [hld]
      omega
  · rw [if_neg hev]
    have hev50 : (s.historyIndex + 1).toNat + 1 ≤ 50 := by
      have := hm ▸ hpl ▸ hev
      omega
    refine ⟨⟨?_, ?_, ?_⟩, ?_⟩
    · show (pushedHistory s).length ≤ MAX_HISTORY
      rw [hpl, hm]
      omega
    · show -1 ≤ s.historyIndex + 1
      omega
    · show s.historyIndex + 1 ≤ ((pushedHistory s).length : Int) - 1
      rw [hpl]
      omega
    · show s.historyIndex + 1 = ((pushedHistory s).length : Int) - 1
      rw [hpl]
      omega

theorem histWF_eq (s t : EditorState) (hh : t.history = s.history)
    (hi : t.historyIndex = s.historyIndex) (h : histWF s) : histWF t := by
  unfold histWF at h ⊢
  rw [hh, hi]
  exact h

theorem undo_histWF (s : EditorState) (h : histWF s) : histWF (undo s) := by
  obtain ⟨hb, hn, hi⟩ := h
  unfold undo
  by_cases hc : canUndo s = true
  · rw [if_pos hc]
    have hp : 0 < s.historyIndex := of_decide_eq_true hc
    refine ⟨hb, ?_, ?_⟩
    · show -1 ≤ s.historyIndex - 1
      omega
    · show s.historyIndex - 1 ≤ (s.history.length : Int) - 1
      omega
  · rw [if_neg hc]
    exact ⟨hb, hn, hi⟩

theorem redo_histWF (s : EditorState) (h : histWF s) : histWF (redo s) := by
  obtain ⟨hb, hn, hi⟩ := h
  unfold redo
  by_cases hc : canRedo s = true
  · rw [if_pos hc]
    have hp : s.historyIndex < (s.history.length : Int) - 1 := of_decide_eq_true hc
    refine ⟨hb, ?_, ?_⟩
    · show -1 ≤ s.historyIndex + 1
      omega
    · show s.historyIndex + 1 ≤ (s.history.length : Int) - 1
      omega
  · rw [if_neg hc]
    exact ⟨hb, hn, hi⟩

theorem applyOp_histWF (s : EditorState) (op : Op) (h : histWF s) :
    histWF (applyOp s op) := by
  have hreset : ∀ t : EditorState, t.history = [] → t.historyIndex = -1 → histWF t := by
    intro t h1 h2
    refine ⟨?_, ?_, ?_⟩ <;> rw [histWF] at * <;> simp [h1, h2, MAX_HISTORY]
  cases op with
  | setImage src w hgt =>
      show histWF (setImage s src w hgt)
      unfold setImage
      refine (saveToHistory_histWF _ (hreset _ ?_ ?_)).1 <;> rfl
  | addImageLayer p =>
      show histWF (addImageLayer s p)
      unfold addImageLayer pushLayer
      refine (saveToHistory_histWF _ (histWF_eq s _ ?_ ?_ h)).1 <;> rfl
  | addTextWatermark t p o =>
      show histWF (addTextWatermark s t p o)
      unfold addTextWatermark pushLayer
      refine (saveToHistory_histWF _ (histWF_eq s _ ?_ ?_ h)).1 <;> rfl
  | addFrame p =>
      show histWF (addFrame s p)
      unfold addFrame pushLayer
      refine (saveToHistory_histWF _ (histWF_eq s _ ?_ ?_ h)).1 <;> rfl
  | addCollage p =>
      show histWF (addCollage s p)
      unfold addCollage pushLayer
      refine (saveToHistory_histWF _ (histWF_eq s _ ?_ ?_ h)).1 <;> rfl
  | updateLayer i u =>
      show histWF (updateLayer s i u)
      unfold updateLayer
      cases s.layers.find? (fun l => l.id == i) with
      | none => exact h
      | some l => refine histWF_eq s _ ?_ ?_ h <;> rfl
  | deleteLayer i =>
      show histWF (deleteLayer s i)
      unfold deleteLayer
      cases findIndex (fun l => l.id == i) s.layers with
      | none => exact h
      | some index => refine (saveToHistory_histWF _ (histWF_eq s _ ?_ ?_ h)).1 <;> rfl
  | setActiveLayer i => refine histWF_eq s _ ?_ ?_ h <;> rfl
  | toggleLayerVisibility i =>
      show histWF (toggleLayerVisibility s i)
      unfold toggleLayerVisibility
      cases s.layers.find? (fun l => l.id == i) with
      | none => exact h
      | some l => refine (saveToHistory_histWF _ (histWF_eq s _ ?_ ?_ h)).1 <;> rfl
  | moveLayer i d =>
      show histWF (moveLayer s i d)
      unfold moveLayer
      cases findIndex (fun l => l.id == i) s.layers with
      | none => exact h
      | some index =>
          show histWF (if moveTarget d index < 0 ∨
              (s.layers.length : Int) ≤ moveTarget d index then s
            else saveToHistory
              { s with layers := swapAt s.layers index (moveTarget d index).toNat })
          by_cases hc : moveTarget d index < 0 ∨
              (s.layers.length : Int) ≤ moveTarget d index
          · rw [if_pos hc]
            exact h
          · rw [if_neg hc]
            refine (saveToHistory_histWF _ (histWF_eq s _ ?_ ?_ h)).1 <;> rfl
  | setZoom v => refine histWF_eq s _ ?_ ?_ h <;> rfl
  | undo => exact undo_histWF s h
  | redo => exact redo_histWF s h
  | clear => exact hreset _ rfl rfl
  | loadFromTemplate ls =>
      show histWF (loadFromTemplate s ls)
      unfold loadFromTemplate
      refine (saveToHistory_histWF _ (histWF_eq s _ ?_ ?_ h)).1 <;> rfl

theorem run_histWF (ops : List Op) (s : EditorState) (h : histWF s) :
    histWF (run s ops) := by
  induction ops generalizing s with
  | nil => exact h
  | cons op ops ih => exact ih _ (applyOp_histWF s op h)

/-- C3: over every operation sequence the history never exceeds 51
entries (it in fact stays at `MAX_HISTORY = 50`); and whenever a
capture would push the list past the bound of 50, the oldest snapshot
is evicted (`shift`), `historyIndex` is not advanced yet still points
at the newest entry, and `canUndo` remains true. -/
theorem history_bounded_and_eviction (ops : List Op) :
    (run initialState ops).history.length ≤ 51 ∧
    (MAX_HISTORY < (pushedHistory (run initialState ops)).length →
      (saveToHistory (run initialState ops)).history
          = (pushedHistory (run initialState ops)).drop 1 ∧
        (saveToHistory (run initialState ops)).historyIndex
          = (run initialState ops).historyIndex ∧
        (saveToHistory (run initialState ops)).historyIndex
          = ((saveToHistory (run initialState ops)).history.length : Int) - 1 ∧
        canUndo (saveToHistory (run initialState ops)) = true) := by
  obtain ⟨hb, hn, hi⟩ := run_histWF ops initialState histWF_initial
  have h50 : (run initialState ops).history.length ≤ 50 := hb
  constructor
  · omega
  · intro hev
    have hm : MAX_HISTORY = 50 := rfl
    have hpl := pushedHistory_length (run initialState ops) hn hi
    have hev50 : 50 < ((run initialState ops).historyIndex + 1).toNat + 1 :=
      hm ▸ hpl ▸ hev
    have hsv : saveToHistory (run initialState ops) =
        { run initialState ops with
          history := (pushedHistory (run initialState ops)).drop 1
          now := (run initialState ops).now + 1 } := by
      unfold saveToHistory
      rw [if_pos hev]
    refine ⟨?_, ?_, ?_, ?_⟩
    · rw [hsv]
    · rw [hsv]
    · rw [hsv]
      show (run initialState ops).historyIndex
        = (((pushedHistory (run initialState ops)).drop 1).length : Int) - 1
      simp only [List.length_drop, hpl]
      omega
    · rw [hsv]
      show decide (0 < (run initialState ops).historyIndex) = true
      rw [decide_eq_true_iff]
      omega

/-- Fifty captures: the image load plus 49 empty template loads. -/
def fullHistoryOps : List Op :=
  Op.setImage "i" 800 600 :: List.replicate 49 (Op.loadFromTemplate [])

set_option maxRecDepth 8000 in
/-- C3 witness: after fifty captures the history is full (50 entries),
and the next capture exceeds the bound, evicts the oldest snapshot,
leaves the cursor un-advanced at the newest entry, with undo
available. -/
theorem history_bounded_and_eviction_witness :
    MAX_HISTORY < (pushedHistory (run initialState fullHistoryOps)).length ∧
    ((saveToHistory (run initialState fullHistoryOps)).history
        = (pushedHistory (run initialState fullHistoryOps)).drop 1 ∧
      (saveToHistory (run initialState fullHistoryOps)).historyIndex
        = (run initialState fullHistoryOps).historyIndex ∧
      (saveToHistory (run initialState fullHistoryOps)).historyIndex
        = ((saveToHistory (run initialState fullHistoryOps)).history.length : Int) - 1 ∧
      canUndo (saveToHistory (run initialState fullHistoryOps)) = true) :=
  ⟨by decide, (history_bounded_and_eviction fullHistoryOps).2 (by decide)⟩

/-! ### C4: the active-layer reference invariant -/

/-- The invariant: the selection is empty or names a present layer. -/
def activeOk (s : EditorState) : Bool :=
  match s.activeLayerId with
  | none => true
  | some i => s.layers.any (fun l => l.id == i)

/-- One call is selection-safe when, if it is `setActiveLayer` with an
id, that id names a layer present at call time. -/
def selectSafe (s : EditorState) : Op → Bool
  | .setActiveLayer (some i) => s.layers.any (fun l => l.id == i)
  | _ => true

/-- Every call of the sequence is selection-safe in the state where it
executes. -/
def safeSelects : EditorState → List Op → Bool
  | _, [] => true
  | s, op :: ops => selectSafe s op && safeSelects (applyOp s op) ops

theorem activeOk_saveToHistory (t : EditorState) :
    activeOk (saveToHistory t) = activeOk t := by
  unfold activeOk
  rw [saveToHistory_activeLayerId, saveToHistory_layers]

theorem activeOk_layers_any (t : EditorState)
    (hkeep : ∀ a, t.activeLayerId = some a → t.layers.any (fun l => l.id == a) = true) :
    activeOk t = true := by
  unfold activeOk
  cases hA : t.activeLayerId with
  | none => rfl
  | some a => exact hkeep a hA

theorem activeOk_any_true (t : EditorState) (h : activeOk t = true) (a : Nat)
    (hA : t.activeLayerId = some a) : t.layers.any (fun l => l.id == a) = true := by
  unfold activeOk at h
  rw [hA] at h
  exact h

theorem activeOk_pushLayer (t : EditorState) (l : Layer) :
    activeOk (pushLayer t l) = true := by
  unfold pushLayer
  rw [activeOk_saveToHistory]
  refine activeOk_layers_any _ ?_
  intro a hA
  have ha : some l.id = some a := hA
  obtain rfl := Option.some.inj ha
  show (t.layers ++ [l]).any (fun x => x.id == l.id) = true
  simp

theorem any_updateFirst (p : Layer → Bool) (f : Layer → Layer) (q : Layer → Bool)
    (hf : ∀ l, q (f l) = q l) (ls : List Layer) :
    (updateFirst p f ls).any q = ls.any q := by
  induction ls with
  | nil => rfl
  | cons x xs ih =>
      unfold updateFirst
      by_cases hp : p x = true
      · rw [if_pos hp]
        simp [List.any_cons, hf x]
      · rw [if_neg hp]
        simp [List.any_cons, ih]

theorem findIndex_some (p : Layer → Bool) (ls : List Layer) (n : Nat)
    (h : findIndex p ls = some n) : ∃ x, ls.get? n = some x ∧ p x = true := by
  induction ls generalizing n with
  | nil => simp [findIndex] at h
  | cons x xs ih =>
      unfold findIndex at h
      by_cases hp : p x = true
      · rw [if_pos hp] at h
        obtain rfl : (0 : Nat) = n := Option.some.inj h
        exact ⟨x, rfl, hp⟩
      · rw [if_neg hp] at h
        obtain ⟨m, hm, rfl⟩ := Option.map_eq_some'.mp h
        obtain ⟨y, hy, hpy⟩ := ih m hm
        exact ⟨y, hy, hpy⟩

theorem any_removeAt (p : Layer → Bool) (ls : List Layer) (n : Nat)
    (hl : ls.any p = true) (hn : ∀ x, ls.get? n = some x → p x = false) :
    (removeAt ls n).any p = true := by
  induction ls generalizing n with
  | nil => simp at hl
  | cons x xs ih =>
      cases n with
      | zero =>
          have hx : p x = false := hn x rfl
          show xs.any p = true
          simpa [List.any_cons, hx] using hl
      | succ m =>
          show (x :: removeAt xs m).any p = true
          by_cases hpx : p x = true
          · simp [List.any_cons, hpx]
          · have hxs : xs.any p = true := by
              simpa [List.any_cons, hpx] using hl
            simp [List.any_cons, ih m hxs (fun y hy => hn y hy)]

theorem any_swapAt (ls : List Layer) (i j : Nat) (q : Layer → Bool)
    (h : ls.any q = true) : (swapAt ls i j).any q = true := by
  unfold swapAt
  cases hi : ls.get? i with
  | none => exact h
  | some a =>
      cases hj : ls.get? j with
      | none => exact h
      | some b =>
          show ((ls.set i b).set j a).any q = true
          obtain ⟨hilt, hia⟩ := List.get?_eq_some.mp hi
          obtain ⟨hjlt, hjb⟩ := List.get?_eq_some.mp hj
          rw [List.any_eq_true] at h ⊢
          obtain ⟨x, hx, hqx⟩ := h
          obtain ⟨k, hk, hkx⟩ := List.mem_iff_getElem.mp hx
          have hlen : ((ls.set i b).set j a).length = ls.length := by simp
          by_cases hkj : k = j
          · subst hkj
            have hxb : x = b := by
              rw [← hkx, ← hjb]
              rfl
            refine ⟨x, List.mem_iff_getElem.mpr ⟨i, by omega, ?_⟩, hqx⟩
            rw [List.getElem_set]
            by_cases hji : k = i
            · rw [if_pos hji]
              subst hji
              rw [hxb, ← hia, ← hjb]
            · rw [if_neg hji, List.getElem_set, if_pos rfl]
              exact hxb.symm
          · by_cases hki : k = i
            · subst hki
              refine ⟨x, List.mem_iff_getElem.mpr ⟨j, by omega, ?_⟩, hqx⟩
              rw [List.getElem_set, if_pos rfl, ← hia]
              exact hkx
            · refine ⟨x, List.mem_iff_getElem.mpr ⟨k, by omega, ?_⟩, hqx⟩
              rw [List.getElem_set, if_neg (by omega)]
              rw [List.getElem_set, if_neg (by omega)]
              exact hkx

theorem any_of_head (ls : List Layer) (a : Nat)
    (h : ls.head?.map (fun l => l.id) = some a) : ls.any (fun l => l.id == a) = true := by
  cases ls with
  | nil => simp at h
  | cons x xs =>
      simp only [List.head?_cons, Option.map_some'] at h
      obtain h := Option.some.inj h
      simp [List.any_cons, h]

theorem applyOp_activeOk (s : EditorState) (op : Op) (h : activeOk s = true)
    (hop : selectSafe s op = true) : activeOk (applyOp s op) = true := by
  cases op with
  | setImage src w hgt =>
      show activeOk (setImage s src w hgt) = true
      unfold setImage
      rw [activeOk_saveToHistory]
      rfl
  | addImageLayer p =>
      show activeOk (addImageLayer s p) = true
      unfold addImageLayer
      exact activeOk_pushLayer _ _
  | addTextWatermark t p o =>
      show activeOk (addTextWatermark s t p o) = true
      unfold addTextWatermark
      exact activeOk_pushLayer _ _
  | addFrame p =>
      show activeOk (addFrame s p) = true
      unfold addFrame
      exact activeOk_pushLayer _ _
  | addCollage p =>
      show activeOk (addCollage s p) = true
      unfold addCollage
      exact activeOk_pushLayer _ _
  | updateLayer i u =>
      show activeOk (updateLayer s i u) = true
      unfold updateLayer
      cases s.layers.find? (fun l => l.id == i) with
      | none => exact h
      | some l =>
          refine activeOk_layers_any _ ?_
          intro a hA
          show (updateFirst (fun l => l.id == i)
            (fun l => { l with props := objAssign l.props u }) s.layers).any
              (fun l => l.id == a) = true
          exact (any_updateFirst (fun l => l.id == i)
              (fun l => { l with props := objAssign l.props u })
              (fun l => l.id == a) (fun l => rfl) s.layers).trans
            (activeOk_any_true s h a hA)
  | deleteLayer i =>
      show activeOk (deleteLayer s i) = true
      unfold deleteLayer
      cases hf : findIndex (fun l => l.id == i) s.layers with
      | none => exact h
      | some index =>
          show activeOk (saveToHistory
            { s with
              layers := removeAt s.layers index
              activeLayerId :=
                if s.activeLayerId = some i then
                  (removeAt s.layers index).head?.map (fun l => l.id)
                else s.activeLayerId }) = true
          rw [activeOk_saveToHistory]
          refine activeOk_layers_any _ ?_
          intro a hA
          show (removeAt s.layers index).any (fun l => l.id == a) = true
          have hA2 : (if s.activeLayerId = some i
              then (removeAt s.layers index).head?.map (fun l => l.id)
              else s.activeLayerId) = some a := hA
          by_cases hAi : s.activeLayerId = some i
          · rw [if_pos hAi] at hA2
            exact any_of_head _ a hA2
          · rw [if_neg hAi] at hA2
            obtain ⟨x0, hx0, hpx0⟩ := findIndex_some _ _ _ hf
            refine any_removeAt _ _ _ (activeOk_any_true s h a hA2) ?_
            intro y hy
            have hyx : y = x0 := by
              rw [hy] at hx0
              exact Option.some.inj hx0
            subst hyx
            have hxi : y.id = i := by simpa using hpx0
            have hai : ¬ a = i := by
              intro hcon
              exact hAi (hcon ▸ hA2)
            rw [hxi]
            simp only [beq_eq_false_iff_ne, ne_eq]
            intro hcon
            exact hai hcon.symm
  | setActiveLayer oi =>
      cases oi with
      | none => rfl
      | some a =>
          refine activeOk_layers_any _ ?_
          intro a2 hA2
          have heq : some a = some a2 := hA2
          obtain rfl := Option.some.inj heq
          exact hop
  | toggleLayerVisibility i =>
      show activeOk (toggleLayerVisibility s i) = true
      unfold toggleLayerVisibility
      cases s.layers.find? (fun l => l.id == i) with
      | none => exact h
      | some l =>
          rw [activeOk_saveToHistory]
          refine activeOk_layers_any _ ?_
          intro a hA
          show (updateFirst (fun l => l.id == i)
            (fun l => { l with visible := !l.visible }) s.layers).any
              (fun l => l.id == a) = true
          exact (any_updateFirst (fun l => l.id == i)
              (fun l => { l with visible := !l.visible })
              (fun l => l.id == a) (fun l => rfl) s.layers).trans
            (activeOk_any_true s h a hA)
  | moveLayer i d =>
      show activeOk (moveLayer s i d) = true
      unfold moveLayer
      cases findIndex (fun l => l.id == i) s.layers with
      | none => exact h
      | some index =>
          show activeOk (if moveTarget d index < 0 ∨
              (s.layers.length : Int) ≤ moveTarget d index then s
            else saveToHistory
              { s with layers := swapAt s.layers index (moveTarget d index).toNat }) = true
          by_cases hc : moveTarget d index < 0 ∨ (s.layers.length : Int) ≤ moveTarget d index
          · rw [if_pos hc]
            exact h
          · rw [if_neg hc]
            rw [activeOk_saveToHistory]
            refine activeOk_layers_any _ ?_
            intro a hA
            show (swapAt s.layers index (moveTarget d index).toNat).any
              (fun l => l.id == a) = true
            exact any_swapAt _ _ _ _ (activeOk_any_true s h a hA)
  | setZoom v => exact h
  | undo =>
      show activeOk (undo s) = true
      unfold undo
      by_cases hc : canUndo s = true
      · rw [if_pos hc]
        rfl
      · rw [if_neg hc]
        exact h
  | redo =>
      show activeOk (redo s) = true
      unfold redo
      by_cases hc : canRedo s = true
      · rw [if_pos hc]
        rfl
      · rw [if_neg hc]
        exact h
  | clear => rfl
  | loadFromTemplate ls =>
      show activeOk (loadFromTemplate s ls) = true
      unfold loadFromTemplate
      rw [activeOk_saveToHistory]
      refine activeOk_layers_any _ ?_
      intro a hA
      exact any_of_head ls a hA

theorem safeSelects_activeOk (ops : List Op) (s : EditorState)
    (h : activeOk s = true) (hs : safeSelects s ops = true) :
    activeOk (run s ops) = true := by
  induction ops generalizing s with
  | nil => exact h
  | cons op ops ih =>
      rw [safeSelects, Bool.and_eq_true] at hs
      exact ih _ (applyOp_activeOk s op h hs.1) hs.2

/-- C4 counterexample: `setActiveLayer` performs no validation, so a
single call with an absent id already violates the invariant; and when
the active layer is deleted while other layers remain, the reference is
repointed at the first remaining layer, not cleared. -/
theorem active_layer_invariant_cex :
    activeOk (run initialState [.setActiveLayer (some 99)]) = false ∧
    (deleteLayer (run initialState
        [.setImage "i" 800 600, .addFrame [], .addFrame []]) 1).activeLayerId = some 0 ∧
    (deleteLayer (run initialState
        [.setImage "i" 800 600, .addFrame [], .addFrame []]) 1).activeLayerId ≠ none := by
  refine ⟨by decide, by decide, by decide⟩

/-- C4 (amended): over every operation sequence in which each
`setActiveLayer` call passes `none` or the id of a layer present at
call time, `activeLayerId` is always absent or the id of a present
layer; deleting the layer it references repoints it at the first
remaining layer, or clears it when none remain. -/
theorem active_layer_invariant (ops : List Op)
    (hs : safeSelects initialState ops = true) :
    activeOk (run initialState ops) = true :=
  safeSelects_activeOk ops initialState rfl hs

/-- C4 witness: a sequence whose only selection call names a live layer
keeps the invariant. -/
theorem active_layer_invariant_witness :
    safeSelects initialState
      [.setImage "i" 800 600, .addFrame [], .setActiveLayer (some 0)] = true ∧
    activeOk (run initialState
      [.setImage "i" 800 600, .addFrame [], .setActiveLayer (some 0)]) = true :=
  ⟨by decide, active_layer_invariant _ (by decide)⟩

/-! ### C8: updateLayer is a local shallow merge with no capture -/

theorem find?_map_setkey (t : Props) (k0 k : String) (v : PropVal)
    (h : (k0 == k) = false) :
    (t.map (fun kv => if kv.1 == k0 then (k0, v) else kv)).find? (fun kv => kv.1 == k)
      = t.find? (fun kv => kv.1 == k) := by
  induction t with
  | nil => rfl
  | cons kv t ih =>
      simp only [List.map_cons]
      by_cases hk0 : (kv.1 == k0) = true
      · have h1 : kv.1 = k0 := by simpa using hk0
        rw [if_pos hk0]
        rw [List.find?_cons_of_neg _ (by simp [h]),
          List.find?_cons_of_neg _ (by simp [h1, h])]
        exact ih
      · rw [if_neg hk0]
        by_cases hkvk : (kv.1 == k) = true
        · rw [@List.find?_cons_of_pos _ (fun kv => kv.1 == k) kv _ hkvk,
            @List.find?_cons_of_pos _ (fun kv => kv.1 == k) kv _ hkvk]
        · rw [@List.find?_cons_of_neg _ (fun kv => kv.1 == k) kv _ hkvk,
            @List.find?_cons_of_neg _ (fun kv => kv.1 == k) kv _ hkvk]
          exact ih

theorem getProp_setProp_ne (m : Props) (k0 : String) (v : PropVal) (k : String)
    (h : (k0 == k) = false) : getProp (setProp m k0 v) k = getProp m k := by
  unfold setProp getProp
  by_cases hmem : m.any (fun kv => kv.1 == k0) = true
  · rw [if_pos hmem, find?_map_setkey m k0 k v h]
  · rw [if_neg hmem, List.find?_append]
    have hone : ([(k0, v)] : Props).find? (fun kv => kv.1 == k) = none := by
      simp [List.find?, h]
    rw [hone]
    cases m.find? (fun kv => kv.1 == k) <;> rfl

theorem getProp_objAssign_not_key (base u : Props) (k : String)
    (h : ∀ kv ∈ u, (kv.1 == k) = false) :
    getProp (objAssign base u) k = getProp base k := by
  induction u generalizing base with
  | nil => rfl
  | cons kv u ih =>
      show getProp (objAssign (setProp base kv.1 kv.2) u) k = getProp base k
      rw [ih (setProp base kv.1 kv.2) (fun x hx => h x (List.mem_cons_of_mem kv hx))]
      exact getProp_setProp_ne base kv.1 kv.2 k (h kv (List.mem_cons_self kv u))

theorem length_updateFirst (p : Layer → Bool) (f : Layer → Layer) (ls : List Layer) :
    (updateFirst p f ls).length = ls.length := by
  induction ls with
  | nil => rfl
  | cons x xs ih =>
      unfold updateFirst
      by_cases hp : p x = true
      · rw [if_pos hp]
        rfl
      · rw [if_neg hp]
        simp [ih]

theorem updateFirst_get?_ne (p : Layer → Bool) (f : Layer → Layer) (ls : List Layer)
    (n : Nat) (hn : findIndex p ls = some n) (k : Nat) (hk : k ≠ n) :
    (updateFirst p f ls).get? k = ls.get? k := by
  induction ls generalizing n k with
  | nil => rfl
  | cons x xs ih =>
      unfold findIndex at hn
      unfold updateFirst
      by_cases hp : p x = true
      · rw [if_pos hp] at hn ⊢
        obtain rfl : (0 : Nat) = n := Option.some.inj hn
        cases k with
        | zero => exact absurd rfl hk
        | succ m => rfl
      · rw [if_neg hp] at hn ⊢
        obtain ⟨m, hm, rfl⟩ := Option.map_eq_some'.mp hn
        cases k with
        | zero => rfl
        | succ k2 =>
            show (updateFirst p f xs).get? k2 = xs.get? k2
            exact ih m hm k2 (by omega)

theorem updateFirst_get?_eq (p : Layer → Bool) (f : Layer → Layer) (ls : List Layer)
    (n : Nat) (hn : findIndex p ls = some n) :
    (updateFirst p f ls).get? n = (ls.get? n).map f := by
  induction ls generalizing n with
  | nil => rfl
  | cons x xs ih =>
      unfold findIndex at hn
      unfold updateFirst
      by_cases hp : p x = true
      · rw [if_pos hp] at hn ⊢
        obtain rfl : (0 : Nat) = n := Option.some.inj hn
        rfl
      · rw [if_neg hp] at hn ⊢
        obtain ⟨m, hm, rfl⟩ := Option.map_eq_some'.mp hn
        show (updateFirst p f xs).get? m = (xs.get? m).map f
        exact ih m hm

theorem find?_isSome_of_findIndex (p : Layer → Bool) (ls : List Layer) (n : Nat)
    (h : findIndex p ls = some n) : ∃ x, ls.find? p = some x := by
  induction ls generalizing n with
  | nil => simp [findIndex] at h
  | cons x xs ih =>
      unfold findIndex at h
      by_cases hp : p x = true
      · exact ⟨x, List.find?_cons_of_pos _ hp⟩
      · rw [if_neg hp] at h
        obtain ⟨m, hm, rfl⟩ := Option.map_eq_some'.mp h
        obtain ⟨y, hy⟩ := ih m hm
        refine ⟨y, ?_⟩
        rw [List.find?_cons_of_neg _ hp]
        exact hy

/-- C8: `updateLayer(id, updates)` on a present layer (found at `idx`)
shallow-merges `updates` into exactly that layer's props — every props
field not named in `updates` keeps its previous value, and identity,
type, name, visibility and lock are untouched — while every other
layer and all remaining state (history, cursor, selection, zoom,
canvas size, image) is unchanged; in particular no history snapshot is
captured. -/
theorem updateLayer_spec (s : EditorState) (i : Nat) (u : Props) (idx : Nat)
    (hidx : findIndex (fun l => l.id == i) s.layers = some idx) :
    (updateLayer s i u).layers.length = s.layers.length ∧
    (∀ k, k ≠ idx → (updateLayer s i u).layers.get? k = s.layers.get? k) ∧
    (∃ l0 l1, s.layers.get? idx = some l0 ∧
      (updateLayer s i u).layers.get? idx = some l1 ∧
      l1.id = l0.id ∧ l1.type = l0.type ∧ l1.name = l0.name ∧
      l1.visible = l0.visible ∧ l1.lock = l0.lock ∧
      l1.props = objAssign l0.props u ∧
      ∀ key, (∀ kv ∈ u, (kv.1 == key) = false) →
        getProp l1.props key = getProp l0.props key) ∧
    (updateLayer s i u).history = s.history ∧
    (updateLayer s i u).historyIndex = s.historyIndex ∧
    (updateLayer s i u).activeLayerId = s.activeLayerId ∧
    (updateLayer s i u).zoom = s.zoom ∧
    (updateLayer s i u).canvasSize = s.canvasSize ∧
    (updateLayer s i u).image = s.image := by
  obtain ⟨w, hw⟩ := find?_isSome_of_findIndex _ _ _ hidx
  have hUL : updateLayer s i u =
      { s with layers := (updateFirst (fun l => l.id == i)
          (fun l => { l with props := objAssign l.props u }) s.layers) } := by
    unfold updateLayer
    rw [hw]
  obtain ⟨l0, hl0, hpl0⟩ := findIndex_some _ _ _ hidx
  refine ⟨?_, ?_, ?_, ?_, ?_, ?_, ?_, ?_, ?_⟩
  · rw [hUL]
    show (updateFirst (fun l => l.id == i)
      (fun l => { l with props := objAssign l.props u }) s.layers).length = s.layers.length
    exact length_updateFirst _ _ _
  · intro k hk
    rw [hUL]
    show (updateFirst (fun l => l.id == i)
      (fun l => { l with props := objAssign l.props u }) s.layers).get? k = s.layers.get? k
    exact updateFirst_get?_ne _ _ _ idx hidx k hk
  · refine ⟨l0, { l0 with props := objAssign l0.props u }, hl0, ?_, rfl, rfl, rfl, rfl,
      rfl, rfl, ?_⟩
    · rw [hUL]
      show (updateFirst (fun l => l.id == i)
        (fun l => { l with props := objAssign l.props u }) s.layers).get? idx
          = some { l0 with props := objAssign l0.props u }
      rw [updateFirst_get?_eq _ _ _ idx hidx, hl0]
      rfl
    · intro key hkey
      exact getProp_objAssign_not_key l0.props u key hkey
  · rw [hUL]
  · rw [hUL]
  · rw [hUL]
  · rw [hUL]
  · rw [hUL]
  · rw [hUL]

/-- C8 witness: updating `borderWidth` of the only frame layer keeps
history, cursor and the other props (`borderColor` stays white). -/
theorem updateLayer_spec_witness :
    findIndex (fun l => l.id == 0)
      (run initialState [.setImage "i" 800 600, .addFrame []]).layers = some 0 ∧
    (updateLayer (run initialState [.setImage "i" 800 600, .addFrame []]) 0
        [("borderWidth", .num 30)]).history
      = (run initialState [.setImage "i" 800 600, .addFrame []]).history ∧
    (updateLayer (run initialState [.setImage "i" 800 600, .addFrame []]) 0
        [("borderWidth", .num 30)]).layers.map (fun l => getProp l.props "borderColor")
      = [some (.str "#ffffff")] ∧
    (updateLayer (run initialState [.setImage "i" 800 600, .addFrame []]) 0
        [("borderWidth", .num 30)]).layers.map (fun l => getProp l.props "borderWidth")
      = [some (.num 30)] :=
  ⟨by decide,
    (updateLayer_spec (run initialState [.setImage "i" 800 600, .addFrame []]) 0
      [("borderWidth", .num 30)] 0 (by decide)).2.2.2.1,
    by decide, by decide⟩

end FrameSnap
